import Mathlib

/-!
# AIOps-lite: verification of the correlation / anomaly-scoring / RCA pipeline

A shallow embedding of the two core source files:

* `prepare_data.py` — `merge_data` (pandas `merge_asof`, by service, nearest
  timestamp within a 15 s tolerance, missing metric cells filled with 0);
* `rca_analysis.py` — `main` (filtering, feature thresholds, IsolationForest
  scoring, trace-level root-cause aggregation, suggestion engine, report).

Modelling conventions, used throughout:

* pandas timestamps are rationals (seconds); floats are rationals.
* `sort_values` / `merge_asof` are embedded by their denotation: sorting is
  embedded as a stable sort (`List.insertionSort`; pandas sorting is
  deterministic, and ties between equal keys keep the prior frame order,
  which for the small frames of this repository is what numpy's introsort
  produces as well).
* The IsolationForest itself is sklearn library code, not part of this
  repository; the pipeline embedding therefore takes the model's output as two
  oracles `score : Row → ℚ` (the `anomaly_score` column) and
  `flag : Row → Bool` (the `is_anomaly == "Anomaly"` column).  Every theorem
  about the aggregation quantifies over arbitrary oracles.  The spec-level
  thresholding behaviour of the model is modelled separately
  (`flagByContamination`).
* Python `str.lower` is embedded as `lowerStr` (all data is ASCII), and
  Python's substring test `a in b` as `containsSubstr`.
-/

/-- A parsed log record (`load_logs` in prepare_data.py; the spec's LogEvent). -/
structure LogRow where
  timestamp : ℚ
  level : String
  service : String
  trace_id : String
  span_id : String := ""
  class_name : String := ""
  message : String
deriving DecidableEq, Repr

/-- One row of the pivoted wide metric frame built by `load_metrics`
(prepare_data.py lines 50-84).  A cell that the pivot leaves empty (no sample
for this (timestamp, service, metric) combination) is `none`; `merge_data`
line 102 later fills such cells with 0. -/
structure MetricRow where
  timestamp : ℚ
  service : String
  cpu_usage : Option ℚ := none
  error_rate : Option ℚ := none
  hikaricp_active : Option ℚ := none
  jvm_heap_used_bytes : Option ℚ := none
  jvm_heap_max_bytes : Option ℚ := none
  latency_p95_ms : Option ℚ := none
  throughput_requests_per_second : Option ℚ := none
deriving DecidableEq, Repr

/-- One row of `correlated_data.csv` as consumed by rca_analysis.py, with the
seven metric columns present and non-null (the fill at prepare_data.py
line 102 has already replaced missing metric cells with 0). -/
structure Row where
  timestamp : ℚ
  level : String
  service : String
  trace_id : String
  span_id : String := ""
  class_name : String := ""
  message : String
  cpu_usage : ℚ := 0
  error_rate : ℚ := 0
  hikaricp_active : ℚ := 0
  jvm_heap_used_bytes : ℚ := 0
  jvm_heap_max_bytes : ℚ := 0
  latency_p95_ms : ℚ := 0
  throughput_requests_per_second : ℚ := 0
deriving DecidableEq, Repr

/-- The log-field projection of a merged row. -/
def toLogRow (r : Row) : LogRow :=
  { timestamp := r.timestamp, level := r.level, service := r.service,
    trace_id := r.trace_id, span_id := r.span_id, class_name := r.class_name,
    message := r.message }

/-- The merged row holding only the log fields of `l` (its metric components
are the neutral 0 that the pipeline's fill steps assign to absent values). -/
def zeroEnrich (l : LogRow) : Row :=
  { timestamp := l.timestamp, level := l.level, service := l.service,
    trace_id := l.trace_id, span_id := l.span_id, class_name := l.class_name,
    message := l.message }

/-- The merged row for a log event matched to the wide metric record `m`:
metric cells come from `m`, missing cells become 0 (prepare_data.py
line 102 `fillna(0)`). -/
def enrichWith (l : LogRow) (m : MetricRow) : Row :=
  { zeroEnrich l with
    cpu_usage := m.cpu_usage.getD 0,
    error_rate := m.error_rate.getD 0,
    hikaricp_active := m.hikaricp_active.getD 0,
    jvm_heap_used_bytes := m.jvm_heap_used_bytes.getD 0,
    jvm_heap_max_bytes := m.jvm_heap_max_bytes.getD 0,
    latency_p95_ms := m.latency_p95_ms.getD 0,
    throughput_requests_per_second := m.throughput_requests_per_second.getD 0 }

/-- All seven metric components of a merged row are zero. -/
def metricsZero (r : Row) : Prop :=
  r.cpu_usage = 0 ∧ r.error_rate = 0 ∧ r.hikaricp_active = 0 ∧
  r.jvm_heap_used_bytes = 0 ∧ r.jvm_heap_max_bytes = 0 ∧
  r.latency_p95_ms = 0 ∧ r.throughput_requests_per_second = 0

instance (r : Row) : Decidable (metricsZero r) := by
  unfold metricsZero; infer_instance

/-- The wide metric record of `ms` whose timestamp is closest to `t`
(the nearest earlier one on an exact tie, matching `merge_asof`'s preference
for the backward candidate).  This is the denotation of
`pd.merge_asof(..., direction="nearest")` restricted to one left row. -/
def nearestIn (t : ℚ) : List MetricRow → Option MetricRow
  | [] => none
  | m :: ms =>
    match nearestIn t ms with
    | none => some m
    | some b => if |b.timestamp - t| < |m.timestamp - t| then some b else some m

/-- Candidate wide metric records for a log event: same `service`
(`merge_asof`'s `by="service"`). -/
def sameService (l : LogRow) (metrics : List MetricRow) : List MetricRow :=
  metrics.filter (fun m => m.service == l.service)

/-- Nearest same-service wide metric record for a log event. -/
def nearestMetric (l : LogRow) (metrics : List MetricRow) : Option MetricRow :=
  nearestIn l.timestamp (sameService l metrics)

/-- Nearest same-service wide metric record, if within the 15 s tolerance
(`tolerance=pd.Timedelta("15s")`, inclusive). -/
def matchedMetric (l : LogRow) (metrics : List MetricRow) : Option MetricRow :=
  match nearestMetric l metrics with
  | none => none
  | some m => if |m.timestamp - l.timestamp| ≤ 15 then some m else none

/-- Result of `merge_data` (prepare_data.py lines 86-104).  `hasMetricCols`
records whether the frame carries the metric columns at all: when the metric
frame is empty, merge_data returns `df_logs` unchanged (lines 88-90), a frame
with *no* metric columns; the metric components of those placeholder rows are
0 and are never read (rca_analysis crashes before reading them, see
`runPipeline`). -/
structure MergedFrame where
  rows : List Row
  hasMetricCols : Bool
deriving DecidableEq, Repr

/-- `merge_data(df_logs, df_metrics)`: time-based correlation of log events
with wide metric records. -/
def mergeData (logs : List LogRow) (metrics : List MetricRow) : MergedFrame :=
  if metrics.isEmpty then
    { rows := logs.map zeroEnrich, hasMetricCols := false }
  else
    { rows := logs.map (fun l =>
        match matchedMetric l metrics with
        | some m => enrichWith l m
        | none => zeroEnrich l),
      hasMetricCols := true }

/-! ## Substring containment and the upstream filters (rca_analysis.py 70-80) -/

/-- Python's `str.lower` (the data here is ASCII), character by character. -/
def lowerStr (s : String) : String := String.mk (s.data.map Char.toLower)

/-- Python's substring test `needle in haystack` on character lists. -/
def isInfixB (needle : List Char) : List Char → Bool
  | [] => decide (needle = [])
  | c :: cs => needle.isPrefixOf (c :: cs) || isInfixB needle cs

/-- Python's substring test `needle in haystack` on strings. -/
def containsSubstr (needle haystack : String) : Bool :=
  isInfixB needle.toList haystack.toList

/-- Code-point lexicographic order on character lists (Python / pandas string
comparison). -/
def lexLeB : List Char → List Char → Bool
  | [], _ => true
  | _ :: _, [] => false
  | a :: as, b :: bs =>
    if a < b then true
    else if b < a then false
    else lexLeB as bs

/-- Lexicographic order on strings, as a relation for sorting group keys. -/
def strLe (a b : String) : Prop := lexLeB a.data b.data = true

instance : DecidableRel strLe := fun a b =>
  inferInstanceAs (Decidable (lexLeB a.data b.data = true))

/-- The fixed ignore-list of benign startup phrases
(rca_analysis.py lines 72-78). -/
def ignore_patterns : List String :=
  ["completed initialization", "application started", "service ready",
   "server started", "started successfully"]

/-- Line 79: `df["message"].str.lower().str.contains('|'.join(ignore_patterns))`.
The joined pattern is an alternation of literal phrases (no regex
metacharacters), i.e. a disjunction of substring tests on the lowercased
message. -/
def containsIgnorePattern (msg : String) : Bool :=
  ignore_patterns.any (fun p => containsSubstr p (lowerStr msg))

/-- The timestamp order used by `df.sort_values("timestamp")`. -/
def tsLe (a b : Row) : Prop := a.timestamp ≤ b.timestamp

instance : DecidableRel tsLe := fun a b =>
  inferInstanceAs (Decidable (a.timestamp ≤ b.timestamp))

/-- Line 62: `df.sort_values("timestamp")`, embedded as a stable sort. -/
def sortByTimestamp (df : List Row) : List Row :=
  df.insertionSort tsLe

/-- Line 79: drop rows whose lowercased message contains an ignore phrase. -/
def filterIgnore (df : List Row) : List Row :=
  df.filter (fun r => !(containsIgnorePattern r.message))

/-- Line 80: `df = df[df["level"] != "INFO"]`. -/
def filterInfo (df : List Row) : List Row :=
  df.filter (fun r => r.level != "INFO")

/-- The frame that reaches the model: sorted by timestamp (line 62), then the
ignore-list filter (line 79), then the INFO filter (line 80). -/
def filteredRows (df : List Row) : List Row :=
  filterInfo (filterIgnore (sortByTimestamp df))

/-! ## Derived feature columns used by the suggestion engine
(rca_analysis.py lines 95-123) -/

/-- Line 118: `jvm_heap_used_bytes / (jvm_heap_max_bytes + 1e-9)`. -/
def jvm_heap_usage_ratio (r : Row) : ℚ :=
  r.jvm_heap_used_bytes / (r.jvm_heap_max_bytes + 1 / 1000000000)

/-- `(x - threshold).clip(lower=0)` (line 122). -/
def clipLower0 (x : ℚ) : ℚ := max x 0

/-- Exceedance column for `latency_p95_ms` (threshold 1000). -/
def latency_p95_ms_exceedance (r : Row) : ℚ := clipLower0 (r.latency_p95_ms - 1000)

/-- Exceedance column for `cpu_usage` (threshold 0.85). -/
def cpu_usage_exceedance (r : Row) : ℚ := clipLower0 (r.cpu_usage - 85 / 100)

/-- Exceedance column for `error_rate` (threshold 0.10). -/
def error_rate_exceedance (r : Row) : ℚ := clipLower0 (r.error_rate - 10 / 100)

/-- Exceedance column for `jvm_heap_usage_ratio` (threshold 0.85). -/
def jvm_heap_usage_ratio_exceedance (r : Row) : ℚ :=
  clipLower0 (jvm_heap_usage_ratio r - 85 / 100)

/-- Exceedance column for `hikaricp_active` (threshold 9). -/
def hikaricp_active_exceedance (r : Row) : ℚ := clipLower0 (r.hikaricp_active - 9)

/-! ## Suggestion engine (rca_analysis.py `generate_suggestions`, lines 7-56)

The formatted message strings are abstracted into one constructor per rule,
carrying the service name and the numeric value interpolated into the text. -/

inductive Suggestion where
  /-- OOM in log and JVM heap usage high (> 0.85): memory-leak / -Xmx hint. -/
  | oomHeapHigh (service : String) (ratio : ℚ)
  /-- OOM in log but JVM heap usage not critical: container / native memory hint. -/
  | oomNotCritical (service : String) (ratio : ℚ)
  /-- High P95 latency detected. -/
  | highLatency (service : String) (v : ℚ)
  /-- High CPU usage detected. -/
  | highCpu (service : String) (v : ℚ)
  /-- High JVM heap usage detected. -/
  | highHeap (service : String) (ratio : ℚ)
  /-- Elevated error rate detected. -/
  | highErrorRate (service : String) (v : ℚ)
  /-- Database connection pool nearing exhaustion. -/
  | connPool (service : String) (v : ℚ)
  /-- Fallback: a timeout was reported. -/
  | timeoutHint (service : String)
  /-- Fallback: connection was refused. -/
  | connRefusedHint (service : String)
  /-- Fallback: an unhandled exception occurred. -/
  | exceptionHint (service : String)
  /-- Fallback: review logs and correlated metrics. -/
  | genericHint (service : String)
deriving DecidableEq, Repr

/-- rca_analysis.py lines 13-22: the OOM rule (message contains "oom" or
"outofmemory", lower-cased), with the heap-ratio branch. -/
def oomSuggestions (r : Row) : List Suggestion :=
  if containsSubstr "oom" (lowerStr r.message)
      || containsSubstr "outofmemory" (lowerStr r.message) then
    if jvm_heap_usage_ratio r > 85 / 100 then
      [.oomHeapHigh r.service (jvm_heap_usage_ratio r)]
    else
      [.oomNotCritical r.service (jvm_heap_usage_ratio r)]
  else []

/-- Lines 25-28: the latency-exceedance rule. -/
def latencySuggestion (r : Row) : List Suggestion :=
  if latency_p95_ms_exceedance r > 0 then [.highLatency r.service r.latency_p95_ms] else []

/-- Lines 29-32: the CPU-exceedance rule. -/
def cpuSuggestion (r : Row) : List Suggestion :=
  if cpu_usage_exceedance r > 0 then [.highCpu r.service r.cpu_usage] else []

/-- Lines 33-36: the heap-exceedance rule; note the extra
`"oom" not in msg_lower` guard. -/
def heapSuggestion (r : Row) : List Suggestion :=
  if jvm_heap_usage_ratio_exceedance r > 0
      && !(containsSubstr "oom" (lowerStr r.message)) then
    [.highHeap r.service (jvm_heap_usage_ratio r)]
  else []

/-- Lines 37-40: the error-rate-exceedance rule. -/
def errorRateSuggestion (r : Row) : List Suggestion :=
  if error_rate_exceedance r > 0 then [.highErrorRate r.service r.error_rate] else []

/-- Lines 41-44: the connection-pool-exceedance rule. -/
def connPoolSuggestion (r : Row) : List Suggestion :=
  if hikaricp_active_exceedance r > 0 then [.connPool r.service r.hikaricp_active] else []

/-- The `suggestions` list accumulated by the sequential if-blocks of
lines 13-44, in append order. -/
def mainSuggestions (r : Row) : List Suggestion :=
  oomSuggestions r ++ latencySuggestion r ++ cpuSuggestion r ++ heapSuggestion r ++
    errorRateSuggestion r ++ connPoolSuggestion r

/-- Lines 46-54: the keyword fallback, used only when no other rule fired. -/
def fallbackSuggestions (r : Row) : List Suggestion :=
  if containsSubstr "timeout" (lowerStr r.message) then [.timeoutHint r.service]
  else if containsSubstr "connection" (lowerStr r.message)
      && containsSubstr "refused" (lowerStr r.message) then
    [.connRefusedHint r.service]
  else if containsSubstr "exception" (lowerStr r.message) then [.exceptionHint r.service]
  else [.genericHint r.service]

/-- `generate_suggestions(row)`, evaluated on a merged row (the derived columns
it reads were added to the frame at lines 111-131 and are recomputed here as
functions of the row). -/
def generate_suggestions (r : Row) : List Suggestion :=
  if (mainSuggestions r).isEmpty then fallbackSuggestions r else mainSuggestions r

/-- The OOM branch's guard (rca_analysis.py line 13). -/
def oomBranchFired (r : Row) : Bool :=
  containsSubstr "oom" (lowerStr r.message) || containsSubstr "outofmemory" (lowerStr r.message)

/-- Whether a heap-exceedance suggestion occurs in a suggestion list. -/
def hasHighHeap (l : List Suggestion) : Bool :=
  l.any (fun s => match s with | .highHeap _ _ => true | _ => false)

/-- Whether a latency-exceedance suggestion occurs in a suggestion list. -/
def hasHighLatency (l : List Suggestion) : Bool :=
  l.any (fun s => match s with | .highLatency _ _ => true | _ => false)

/-- Whether a CPU-exceedance suggestion occurs in a suggestion list. -/
def hasHighCpu (l : List Suggestion) : Bool :=
  l.any (fun s => match s with | .highCpu _ _ => true | _ => false)

/-- Whether an error-rate-exceedance suggestion occurs in a suggestion list. -/
def hasHighErrorRate (l : List Suggestion) : Bool :=
  l.any (fun s => match s with | .highErrorRate _ _ => true | _ => false)

/-- Whether a connection-pool-exceedance suggestion occurs in a suggestion list. -/
def hasConnPool (l : List Suggestion) : Bool :=
  l.any (fun s => match s with | .connPool _ _ => true | _ => false)

/-! ## Trace-level aggregation and the report (rca_analysis.py lines 149-196) -/

/-- pandas `Series.unique()`: distinct values in first-seen order
(`seen` accumulates the values already emitted). -/
def uniqueAux : List String → List String → List String
  | [], _ => []
  | x :: xs, seen => if x ∈ seen then uniqueAux xs seen else x :: uniqueAux xs (x :: seen)

/-- pandas `Series.unique()`: distinct values in first-seen order. -/
def uniqueFirstSeen (l : List String) : List String := uniqueAux l []

/-- The group keys of `anomalies.groupby("trace_id")`: distinct trace ids in
ascending order (pandas `groupby` sorts keys). -/
def traceIds (anomalies : List Row) : List String :=
  (uniqueFirstSeen (anomalies.map (fun r => r.trace_id))).insertionSort strLe

/-- The rows of one trace group, in frame order. -/
def traceGroup (rows : List Row) (t : String) : List Row :=
  rows.filter (fun r => r.trace_id == t)

/-- The descending-score order used by
`sort_values("anomaly_score", ascending=False)`. -/
def scoreDesc (score : Row → ℚ) (a b : Row) : Prop := score b ≤ score a

instance (score : Row → ℚ) : DecidableRel (scoreDesc score) := fun a b =>
  inferInstanceAs (Decidable (score b ≤ score a))

/-- Line 155: `group.sort_values("anomaly_score", ascending=False).iloc[0]`,
embedded as the head of a stable descending sort. -/
def worstOf (group : List Row) (score : Row → ℚ) : Option Row :=
  (group.insertionSort (scoreDesc score)).head?

/-- The `metric_features` list (rca_analysis.py lines 105-108). -/
def metric_features : List String :=
  ["cpu_usage", "error_rate", "hikaricp_active", "jvm_heap_used_bytes",
   "jvm_heap_max_bytes", "latency_p95_ms", "throughput_requests_per_second"]

/-- Column access `worst[c]` for the seven raw metric columns. -/
def metricValue (r : Row) (c : String) : ℚ :=
  if c = "cpu_usage" then r.cpu_usage
  else if c = "error_rate" then r.error_rate
  else if c = "hikaricp_active" then r.hikaricp_active
  else if c = "jvm_heap_used_bytes" then r.jvm_heap_used_bytes
  else if c = "jvm_heap_max_bytes" then r.jvm_heap_max_bytes
  else if c = "latency_p95_ms" then r.latency_p95_ms
  else r.throughput_requests_per_second

/-- Line 159: `{c: worst[c] for c in metric_features if c in worst.index and
pd.notna(worst[c])}`.  After the fill at lines 135-138 every metric feature
column exists and is non-null, so the guard always holds and the snapshot maps
each of the seven metric feature names to its (non-null) value. -/
def metricSnapshot (r : Row) : List (String × ℚ) :=
  metric_features.map (fun c => (c, metricValue r c))

/-- One RCA record (rca_analysis.py lines 161-170). -/
structure RCARecord where
  trace_id : String
  root_cause_service : String
  timestamp : ℚ
  message : String
  anomaly_score : ℚ
  metric_snapshot : List (String × ℚ)
  suggestions : List Suggestion
  affected_services : List String
deriving DecidableEq, Repr

/-- Lines 153-170: one RCA record per trace group of the anomaly-flagged rows.
`dfF` is the frame bound to the name `df` at line 157 - i.e. the *filtered*
frame (after lines 79-80), not the full input frame. -/
def rcaRecords (dfF : List Row) (anomalies : List Row) (score : Row → ℚ) :
    List RCARecord :=
  (traceIds anomalies).filterMap (fun t =>
    (worstOf (traceGroup anomalies t) score).map (fun w =>
      { trace_id := t,
        root_cause_service := w.service,
        timestamp := w.timestamp,
        message := w.message,
        anomaly_score := score w,
        metric_snapshot := metricSnapshot w,
        suggestions := generate_suggestions w,
        affected_services :=
          uniqueFirstSeen ((traceGroup dfF t).map (fun r => r.service)) }))

/-- The descending-count order used by `sort_values(ascending=False)` on the
grouped counts. -/
def countDesc (a b : String × Nat) : Prop := b.2 ≤ a.2

instance : DecidableRel countDesc := fun a b =>
  inferInstanceAs (Decidable (b.2 ≤ a.2))

/-- Lines 173-187: `top_errors` - group the anomalies by message (pandas sorts
the keys lexicographically), count each group, stable-sort by count descending,
keep the first 10. -/
def topErrors (anomalies : List Row) : List (String × Nat) :=
  let keys := (uniqueFirstSeen (anomalies.map (fun r => r.message))).insertionSort strLe
  let counted := keys.map (fun m =>
    (m, (anomalies.filter (fun r => r.message == m)).length))
  (counted.insertionSort countDesc).take 10

/-- The report document (rca_analysis.py lines 184-190). -/
structure Report where
  anomaly_count : Nat
  top_errors : List (String × Nat)
  anomalies : List RCARecord
deriving DecidableEq, Repr

/-- Errors the pipeline can raise: the `ValueError` of rca_analysis.py line 68
(the spec's EmptyInputError) and the `KeyError` raised at line 118 when the
correlated frame lacks the raw metric columns. -/
inductive PipelineError where
  | emptyInput
  | keyError
deriving DecidableEq, Repr

/-- The report built from a non-empty filtered frame (lines 143-190), with the
model's output supplied as oracles. -/
def buildReport (df : List Row) (score : Row → ℚ) (flag : Row → Bool) : Report :=
  let dfF := filteredRows df
  let anomalies := dfF.filter flag
  { anomaly_count := anomalies.length,
    top_errors := topErrors anomalies,
    anomalies := rcaRecords dfF anomalies score }

/-- `rca_analysis.main` on a correlated frame that carries the metric columns:
raise on a completely empty frame (lines 67-68), short-circuit to the
zero-anomaly report when filtering leaves nothing (lines 82-92, the model is
not invoked), otherwise score and build the report. -/
def runAnalysis (df : List Row) (score : Row → ℚ) (flag : Row → Bool) :
    Except PipelineError Report :=
  if df.isEmpty then .error .emptyInput
  else if (filteredRows df).isEmpty then
    .ok { anomaly_count := 0, top_errors := [], anomalies := [] }
  else .ok (buildReport df score flag)

/-- The prepare-then-analyse pipeline.  When the metric frame is empty,
`merge_data` returns the logs-only frame (no metric columns); rca_analysis
then passes the emptiness check (line 67) and the filter short-circuit
(lines 82-92), but on any surviving row reaches line 118
(`df["jvm_heap_used_bytes"]`) on a frame without that column and raises
`KeyError` - the fill of missing feature columns at lines 135-138 comes too
late to prevent this. -/
def runPipeline (logs : List LogRow) (metrics : List MetricRow)
    (score : Row → ℚ) (flag : Row → Bool) : Except PipelineError Report :=
  let fr := mergeData logs metrics
  if fr.hasMetricCols then runAnalysis fr.rows score flag
  else if fr.rows.isEmpty then .error .emptyInput
  else if (filteredRows fr.rows).isEmpty then
    .ok { anomaly_count := 0, top_errors := [], anomalies := [] }
  else .error .keyError

/-! ## The anomaly detector's thresholding (spec 4.3)

The IsolationForest is sklearn library code and is not part of this
repository; only its configuration (`contamination=0.08`, line 143) is. -/

/-- Modelled from the spec: the flag count of the thresholding step.  Missing
from src/ (sklearn `IsolationForest.predict`); the spec states the number of
flagged records is `round(contamination × N)`. -/
def contaminationCount (contamination : ℚ) (n : Nat) : ℕ :=
  (round (contamination * n)).toNat

/-- Ranking order for the spec-modelled thresholding: anomaly score descending,
ties broken by record position. -/
def rankDesc (a b : Nat × ℚ) : Prop := b.2 < a.2 ∨ (a.2 = b.2 ∧ a.1 ≤ b.1)

instance : DecidableRel rankDesc := fun a b =>
  inferInstanceAs (Decidable (b.2 < a.2 ∨ (a.2 = b.2 ∧ a.1 ≤ b.1)))

/-- Modelled from the spec: record positions ranked by anomaly score, most
anomalous first (ties broken by position, making the ranking total).  Missing
from src/ (sklearn IsolationForest scoring). -/
def rankedBy (scores : List ℚ) : List (Nat × ℚ) :=
  scores.enum.insertionSort rankDesc

/-- Modelled from the spec: the thresholding of sklearn's
`IsolationForest.predict`, which is not in src/ - "the bottom
contamination × N records by normalized path length (equivalently, top by
anomaly score) are flagged `is_anomaly = true`; all others `false`".  Returns
one Bool per input score, in input order. -/
def flagByContamination (scores : List ℚ) (contamination : ℚ) : List Bool :=
  let top := ((rankedBy scores).take (contaminationCount contamination scores.length)).map
    (fun p => p.1)
  (List.range scores.length).map (fun i => decide (i ∈ top))

/-! ## Order-theoretic facts about the sorting relations -/

instance : IsTotal Row tsLe := ⟨fun a b => le_total a.timestamp b.timestamp⟩

instance : IsTrans Row tsLe := ⟨fun _ _ _ hab hbc => le_trans hab hbc⟩

instance (score : Row → ℚ) : IsTotal Row (scoreDesc score) :=
  ⟨fun a b => (le_total (score b) (score a)).imp id id⟩

instance (score : Row → ℚ) : IsTrans Row (scoreDesc score) :=
  ⟨fun _ _ _ hab hbc => le_trans hbc hab⟩

instance : IsTotal (String × Nat) countDesc :=
  ⟨fun a b => (le_total b.2 a.2).imp id id⟩

instance : IsTrans (String × Nat) countDesc :=
  ⟨fun _ _ _ hab hbc => le_trans hbc hab⟩

theorem lexLeB_total : ∀ x y : List Char, lexLeB x y = true ∨ lexLeB y x = true
  | [], _ => Or.inl rfl
  | _ :: _, [] => Or.inr rfl
  | a :: as, b :: bs => by
    by_cases h1 : a < b
    · left; simp [lexLeB, h1]
    · by_cases h2 : b < a
      · right; simp [lexLeB, h2]
      · have hab : a = b := le_antisymm (not_lt.mp h2) (not_lt.mp h1)
        subst hab
        rcases lexLeB_total as bs with ih | ih
        · left; simp [lexLeB, lt_irrefl, ih]
        · right; simp [lexLeB, lt_irrefl, ih]

theorem lexLeB_trans :
    ∀ x y z : List Char, lexLeB x y = true → lexLeB y z = true → lexLeB x z = true
  | [], _, _, _, _ => rfl
  | _ :: _, [], _, hxy, _ => by simp [lexLeB] at hxy
  | _ :: _, _ :: _, [], _, hyz => by simp [lexLeB] at hyz
  | a :: as, b :: bs, c :: cs, hxy, hyz => by
    simp only [lexLeB] at hxy hyz ⊢
    by_cases hab : a < b
    · by_cases hbc : b < c
      · rw [if_pos (lt_trans hab hbc)]
      · by_cases hcb : c < b
        · rw [if_neg hbc, if_pos hcb] at hyz
          exact absurd hyz (by simp)
        · have hbc2 : b = c := le_antisymm (not_lt.mp hcb) (not_lt.mp hbc)
          subst hbc2
          rw [if_pos hab]
    · by_cases hba : b < a
      · rw [if_neg hab, if_pos hba] at hxy
        exact absurd hxy (by simp)
      · have hab2 : a = b := le_antisymm (not_lt.mp hba) (not_lt.mp hab)
        subst hab2
        rw [if_neg (lt_irrefl a), if_neg (lt_irrefl a)] at hxy
        by_cases hac : a < c
        · rw [if_pos hac]
        · by_cases hca : c < a
          · rw [if_neg hac, if_pos hca] at hyz
            exact absurd hyz (by simp)
          · have hac2 : a = c := le_antisymm (not_lt.mp hca) (not_lt.mp hac)
            subst hac2
            rw [if_neg (lt_irrefl a), if_neg (lt_irrefl a)] at hyz ⊢
            exact lexLeB_trans as bs cs hxy hyz

theorem lexLeB_antisymm :
    ∀ x y : List Char, lexLeB x y = true → lexLeB y x = true → x = y
  | [], [], _, _ => rfl
  | [], _ :: _, _, hyx => by simp [lexLeB] at hyx
  | _ :: _, [], hxy, _ => by simp [lexLeB] at hxy
  | a :: as, b :: bs, hxy, hyx => by
    simp only [lexLeB] at hxy hyx
    by_cases hab : a < b
    · rw [if_neg (asymm hab), if_pos hab] at hyx
      exact absurd hyx (by simp)
    · by_cases hba : b < a
      · rw [if_neg hab, if_pos hba] at hxy
        exact absurd hxy (by simp)
      · have hab2 : a = b := le_antisymm (not_lt.mp hba) (not_lt.mp hab)
        subst hab2
        rw [if_neg (lt_irrefl a), if_neg (lt_irrefl a)] at hxy hyx
        rw [lexLeB_antisymm as bs hxy hyx]

instance : IsTotal String strLe := ⟨fun a b => lexLeB_total a.data b.data⟩

instance : IsTrans String strLe := ⟨fun _ _ _ hab hbc => lexLeB_trans _ _ _ hab hbc⟩

theorem strLe_antisymm {a b : String} (hab : strLe a b) (hba : strLe b a) : a = b := by
  rcases a with ⟨da⟩; rcases b with ⟨db⟩
  exact congrArg String.mk (lexLeB_antisymm da db hab hba)

/-! ## Facts about `uniqueFirstSeen` -/

theorem mem_uniqueAux :
    ∀ (l seen : List String) (a : String), a ∈ uniqueAux l seen ↔ a ∈ l ∧ a ∉ seen
  | [], seen, a => by simp [uniqueAux]
  | x :: xs, seen, a => by
    simp only [uniqueAux]
    by_cases hx : x ∈ seen
    · rw [if_pos hx, mem_uniqueAux xs seen a]
      simp only [List.mem_cons]
      constructor
      · rintro ⟨h1, h2⟩; exact ⟨Or.inr h1, h2⟩
      · rintro ⟨rfl | h1, h2⟩
        · exact absurd hx h2
        · exact ⟨h1, h2⟩
    · rw [if_neg hx]
      simp only [List.mem_cons, mem_uniqueAux xs (x :: seen) a]
      constructor
      · rintro (rfl | ⟨h1, h2⟩)
        · exact ⟨Or.inl rfl, hx⟩
        · exact ⟨Or.inr h1, fun hs => h2 (Or.inr hs)⟩
      · rintro ⟨rfl | h1, h2⟩
        · exact Or.inl rfl
        · by_cases hax : a = x
          · exact Or.inl hax
          · exact Or.inr ⟨h1, fun hs => hs.elim hax h2⟩

theorem mem_uniqueFirstSeen {l : List String} {a : String} :
    a ∈ uniqueFirstSeen l ↔ a ∈ l := by
  rw [uniqueFirstSeen, mem_uniqueAux]
  simp

/-- Sorting does not move the elements of one tie class relative to each other:
filtering the sorted list down to a set of pairwise-related elements recovers
exactly the filter of the input. -/
theorem insertionSort_filter_of_tied {α : Type} (r : α → α → Prop) [DecidableRel r]
    (l : List α) (p : α → Bool) (tied : ∀ a b, p a = true → p b = true → r a b) :
    (l.insertionSort r).filter p = l.filter p := by
  have hpw : (l.filter p).Pairwise r := by
    apply List.pairwise_of_forall_mem_list
    intro a ha b hb
    exact tied a b (List.of_mem_filter ha) (List.of_mem_filter hb)
  have h1 : List.Sublist (l.filter p) (l.insertionSort r) :=
    List.sublist_insertionSort hpw (List.filter_sublist l)
  have h2 : List.Sublist (l.filter p) ((l.insertionSort r).filter p) := by
    have h3 := h1.filter p
    rwa [List.filter_eq_self.mpr (fun a ha => List.of_mem_filter ha)] at h3
  have h4 : ((l.insertionSort r).filter p).length = (l.filter p).length :=
    ((List.perm_insertionSort r l).filter p).length_eq
  exact (h2.eq_of_length h4.symm).symm

/-- The row picked by `worstOf` is a member of the group, carries the maximal
anomaly score, and is the earliest-in-frame-order - hence, for a frame sorted
by timestamp, earliest-timestamp - row among those tied at the maximal
score. -/
theorem worstOf_spec (score : Row → ℚ) (group : List Row)
    (hts : group.Pairwise tsLe) {w : Row} (hw : worstOf group score = some w) :
    w ∈ group ∧ (∀ r ∈ group, score r ≤ score w) ∧
      (∀ r ∈ group, score r = score w → w.timestamp ≤ r.timestamp) := by
  have hw' : (group.insertionSort (scoreDesc score)).head? = some w := hw
  obtain ⟨t, hSt⟩ : ∃ t, group.insertionSort (scoreDesc score) = w :: t := by
    cases h : group.insertionSort (scoreDesc score) with
    | nil => rw [h] at hw'; exact absurd hw' (by simp)
    | cons y t =>
      rw [h] at hw'
      simp only [List.head?_cons, Option.some.injEq] at hw'
      exact ⟨t, by rw [hw']⟩
  have hsorted : (group.insertionSort (scoreDesc score)).Pairwise (scoreDesc score) :=
    List.sorted_insertionSort (scoreDesc score) group
  rw [hSt] at hsorted
  have hmem : w ∈ group := by
    have : w ∈ group.insertionSort (scoreDesc score) := by
      rw [hSt]; exact List.mem_cons_self w t
    exact (List.mem_insertionSort _).mp this
  have hmax : ∀ r ∈ group, score r ≤ score w := by
    intro r hr
    have : r ∈ group.insertionSort (scoreDesc score) := (List.mem_insertionSort _).mpr hr
    rw [hSt] at this
    rcases List.mem_cons.mp this with rfl | hrt
    · exact le_refl _
    · exact List.rel_of_pairwise_cons hsorted hrt
  refine ⟨hmem, hmax, ?_⟩
  intro r hr hscore
  have htied : ∀ a b : Row,
      (decide (score a = score w)) = true → (decide (score b = score w)) = true →
      scoreDesc score a b := by
    intro a b ha hb
    have ha' := of_decide_eq_true ha
    have hb' := of_decide_eq_true hb
    unfold scoreDesc
    rw [ha', hb']
  have hfe := insertionSort_filter_of_tied (scoreDesc score) group
    (fun r => decide (score r = score w)) htied
  rw [hSt, List.filter_cons, if_pos (by simp)] at hfe
  have hgp : (group.filter (fun r => decide (score r = score w))).Pairwise tsLe :=
    hts.filter _
  rw [← hfe] at hgp
  have hrmem : r ∈ w :: t.filter (fun r => decide (score r = score w)) := by
    rw [hfe]
    exact List.mem_filter.mpr ⟨hr, by simp [hscore]⟩
  rcases List.mem_cons.mp hrmem with rfl | hrt
  · exact le_refl _
  · exact List.rel_of_pairwise_cons hgp hrt

/-! ## The filtered frame and the analysis pipeline -/

theorem sortByTimestamp_pairwise (df : List Row) : (sortByTimestamp df).Pairwise tsLe :=
  List.sorted_insertionSort tsLe df

theorem filteredRows_pairwise (df : List Row) : (filteredRows df).Pairwise tsLe :=
  ((sortByTimestamp_pairwise df).filter _).filter _

theorem mem_filteredRows {df : List Row} {r : Row} :
    r ∈ filteredRows df ↔
      r ∈ df ∧ r.level ≠ "INFO" ∧ containsIgnorePattern r.message = false := by
  unfold filteredRows filterInfo filterIgnore
  constructor
  · intro h
    have h1 := List.mem_filter.mp h
    have h2 := List.mem_filter.mp h1.1
    refine ⟨(List.perm_insertionSort tsLe df).mem_iff.mp h2.1, ?_, ?_⟩
    · exact bne_iff_ne.mp h1.2
    · simpa using h2.2
  · rintro ⟨ha, hb, hc⟩
    refine List.mem_filter.mpr ⟨List.mem_filter.mpr ⟨?_, ?_⟩, ?_⟩
    · exact (List.perm_insertionSort tsLe df).mem_iff.mpr ha
    · simpa using hc
    · exact bne_iff_ne.mpr hb

theorem mem_traceGroup {rows : List Row} {t : String} {r : Row} :
    r ∈ traceGroup rows t ↔ r ∈ rows ∧ r.trace_id = t := by
  unfold traceGroup
  simp [List.mem_filter]

theorem runAnalysis_empty (s : Row → ℚ) (f : Row → Bool) :
    runAnalysis [] s f = .error .emptyInput := rfl

theorem runAnalysis_filtered_empty {df : List Row} (s : Row → ℚ) (f : Row → Bool)
    (h1 : df ≠ []) (h2 : filteredRows df = []) :
    runAnalysis df s f = .ok { anomaly_count := 0, top_errors := [], anomalies := [] } := by
  unfold runAnalysis
  rw [if_neg (by simpa using h1), if_pos (by simpa using h2)]

theorem runAnalysis_nonempty {df : List Row} (s : Row → ℚ) (f : Row → Bool)
    (h1 : df ≠ []) (h2 : filteredRows df ≠ []) :
    runAnalysis df s f = .ok (buildReport df s f) := by
  unfold runAnalysis
  rw [if_neg (by simpa using h1), if_neg (by simpa using h2)]

/-- Every RCA record of a successful run comes from `rcaRecords` applied to the
filtered frame and its flagged rows. -/
theorem runAnalysis_anomalies_mem {df : List Row} {s : Row → ℚ} {f : Row → Bool}
    {rep : Report} {rca : RCARecord} (h : runAnalysis df s f = .ok rep)
    (hm : rca ∈ rep.anomalies) :
    rca ∈ rcaRecords (filteredRows df) ((filteredRows df).filter f) s := by
  unfold runAnalysis at h
  by_cases h1 : df.isEmpty
  · rw [if_pos h1] at h; simp at h
  · rw [if_neg h1] at h
    by_cases h2 : (filteredRows df).isEmpty
    · rw [if_pos h2] at h
      injection h with h
      subst h
      simp at hm
    · rw [if_neg h2] at h
      injection h with h
      subst h
      exact hm

/-- Unpacking one RCA record: it is built (rca_analysis.py lines 161-170) from
the root-cause row `w` that `worstOf` picks from its trace group. -/
theorem mem_rcaRecords {dfF anomalies : List Row} {score : Row → ℚ} {rca : RCARecord}
    (h : rca ∈ rcaRecords dfF anomalies score) :
    ∃ w, worstOf (traceGroup anomalies rca.trace_id) score = some w ∧
      rca.root_cause_service = w.service ∧ rca.timestamp = w.timestamp ∧
      rca.message = w.message ∧ rca.anomaly_score = score w ∧
      rca.metric_snapshot = metricSnapshot w ∧
      rca.suggestions = generate_suggestions w ∧
      rca.affected_services =
        uniqueFirstSeen ((traceGroup dfF rca.trace_id).map (fun r => r.service)) := by
  unfold rcaRecords at h
  rcases List.mem_filterMap.mp h with ⟨t, _, hmap⟩
  rcases Option.map_eq_some'.mp hmap with ⟨w, hw, hrec⟩
  subst hrec
  exact ⟨w, hw, rfl, rfl, rfl, rfl, rfl, rfl, rfl⟩

/-! ## Facts about the nearest-metric join -/

theorem nearestIn_eq_none {t : ℚ} :
    ∀ {ms : List MetricRow}, nearestIn t ms = none ↔ ms = []
  | [] => by simp [nearestIn]
  | m :: ms => by
    simp only [nearestIn]
    cases h : nearestIn t ms with
    | none => simp
    | some b => by_cases habs : |b.timestamp - t| < |m.timestamp - t| <;> simp [habs]

theorem nearestIn_mem {t : ℚ} :
    ∀ {ms : List MetricRow} {m : MetricRow}, nearestIn t ms = some m → m ∈ ms
  | [], _, h => by simp [nearestIn] at h
  | x :: ms, m, h => by
    simp only [nearestIn] at h
    cases hrec : nearestIn t ms with
    | none =>
      rw [hrec] at h
      have h2 : some x = some m := h
      injection h2 with h2
      subst h2
      exact List.mem_cons_self x ms
    | some b =>
      rw [hrec] at h
      have h2 : (if |b.timestamp - t| < |x.timestamp - t| then some b else some x)
          = some m := h
      by_cases hlt : |b.timestamp - t| < |x.timestamp - t|
      · rw [if_pos hlt] at h2
        injection h2 with h2
        subst h2
        exact List.mem_cons_of_mem _ (nearestIn_mem hrec)
      · rw [if_neg hlt] at h2
        injection h2 with h2
        subst h2
        exact List.mem_cons_self x ms

theorem nearestIn_min {t : ℚ} :
    ∀ {ms : List MetricRow} {m : MetricRow}, nearestIn t ms = some m →
      ∀ m2 ∈ ms, |m.timestamp - t| ≤ |m2.timestamp - t|
  | [], _, h => by simp [nearestIn] at h
  | x :: ms, m, h => by
    simp only [nearestIn] at h
    cases hrec : nearestIn t ms with
    | none =>
      have hms : ms = [] := nearestIn_eq_none.mp hrec
      rw [hrec] at h
      have h2 : some x = some m := h
      injection h2 with h2
      subst h2
      subst hms
      intro m2 hm2
      rcases List.mem_cons.mp hm2 with rfl | hm2
      · exact le_refl _
      · simp at hm2
    | some b =>
      rw [hrec] at h
      have h2 : (if |b.timestamp - t| < |x.timestamp - t| then some b else some x)
          = some m := h
      intro m2 hm2
      rcases List.mem_cons.mp hm2 with rfl | hm2
      · by_cases hlt : |b.timestamp - t| < |m2.timestamp - t|
        · rw [if_pos hlt] at h2
          injection h2 with h2
          subst h2
          exact le_of_lt hlt
        · rw [if_neg hlt] at h2
          injection h2 with h2
          subst h2
          exact le_refl _
      · have hb := nearestIn_min hrec m2 hm2
        by_cases hlt : |b.timestamp - t| < |x.timestamp - t|
        · rw [if_pos hlt] at h2
          injection h2 with h2
          subst h2
          exact hb
        · rw [if_neg hlt] at h2
          injection h2 with h2
          subst h2
          exact le_trans (not_lt.mp hlt) hb

theorem metricsZero_zeroEnrich (l : LogRow) : metricsZero (zeroEnrich l) :=
  ⟨rfl, rfl, rfl, rfl, rfl, rfl, rfl⟩

/-- The join contract of one merged row (spec 4.1): either it is enriched from
a same-service wide metric record at minimal absolute timestamp distance within
the 15 s tolerance, or no same-service record is within tolerance and all its
metric fields are zero. -/
def correlatedWith (metrics : List MetricRow) (l : LogRow) (e : Row) : Prop :=
  (∃ m ∈ metrics, m.service = l.service ∧ |m.timestamp - l.timestamp| ≤ 15 ∧
    (∀ m2 ∈ metrics, m2.service = l.service →
      |m.timestamp - l.timestamp| ≤ |m2.timestamp - l.timestamp|) ∧
    e = enrichWith l m) ∨
  ((∀ m ∈ metrics, m.service = l.service → ¬ |m.timestamp - l.timestamp| ≤ 15) ∧
    e = zeroEnrich l ∧ metricsZero e)

theorem mergeStep_correlated (metrics : List MetricRow) (l : LogRow) :
    correlatedWith metrics l
      (match matchedMetric l metrics with
       | some m => enrichWith l m
       | none => zeroEnrich l) := by
  unfold correlatedWith
  cases hmm : matchedMetric l metrics with
  | none =>
    right
    refine ⟨?_, rfl, metricsZero_zeroEnrich l⟩
    intro m2 hm2 hsvc htol2
    unfold matchedMetric nearestMetric at hmm
    have hm2mem : m2 ∈ sameService l metrics :=
      List.mem_filter.mpr ⟨hm2, by simp [hsvc]⟩
    cases hnear : nearestIn l.timestamp (sameService l metrics) with
    | none =>
      have hempty := nearestIn_eq_none.mp hnear
      rw [hempty] at hm2mem
      simp at hm2mem
    | some b =>
      rw [hnear] at hmm
      have hmm2 : (if |b.timestamp - l.timestamp| ≤ 15 then some b else none)
          = none := hmm
      by_cases htb : |b.timestamp - l.timestamp| ≤ 15
      · rw [if_pos htb] at hmm2
        exact absurd hmm2 (by simp)
      · have hmin := nearestIn_min hnear m2 hm2mem
        exact htb (le_trans hmin htol2)
  | some m =>
    left
    unfold matchedMetric nearestMetric at hmm
    cases hnear : nearestIn l.timestamp (sameService l metrics) with
    | none =>
      rw [hnear] at hmm
      exact absurd hmm (by simp)
    | some b =>
      rw [hnear] at hmm
      have hmm2 : (if |b.timestamp - l.timestamp| ≤ 15 then some b else none)
          = some m := hmm
      by_cases htb : |b.timestamp - l.timestamp| ≤ 15
      · rw [if_pos htb] at hmm2
        injection hmm2 with hbm
        subst hbm
        have hmem := List.mem_filter.mp (nearestIn_mem hnear)
        refine ⟨b, hmem.1, by simpa using hmem.2, htb, ?_, rfl⟩
        intro m2 hm2 hsvc
        exact nearestIn_min hnear m2 (List.mem_filter.mpr ⟨hm2, by simp [hsvc]⟩)
      · rw [if_neg htb] at hmm2
        exact absurd hmm2 (by simp)

theorem toLogRow_zeroEnrich (l : LogRow) : toLogRow (zeroEnrich l) = l := rfl

theorem toLogRow_enrichWith (l : LogRow) (m : MetricRow) :
    toLogRow (enrichWith l m) = l := rfl

/-- The join is one-to-one: projecting the merged rows back to their log fields
recovers the input log sequence, in order. -/
theorem mergeData_map_toLogRow (logs : List LogRow) (metrics : List MetricRow) :
    (mergeData logs metrics).rows.map toLogRow = logs := by
  unfold mergeData
  by_cases h : metrics.isEmpty
  · rw [if_pos h]
    simp only [List.map_map]
    have hcomp : ∀ l ∈ logs, (toLogRow ∘ zeroEnrich) l = id l := fun l _ => rfl
    rw [List.map_congr_left hcomp, List.map_id]
  · rw [if_neg h]
    simp only [List.map_map]
    have hcomp : ∀ l ∈ logs,
        (toLogRow ∘ fun l => match matchedMetric l metrics with
          | some m => enrichWith l m
          | none => zeroEnrich l) l = id l := by
      intro l _
      simp only [Function.comp_apply, id_eq]
      cases matchedMetric l metrics <;> rfl
    rw [List.map_congr_left hcomp, List.map_id]

/-! ## The top-errors table -/

instance : IsTotal (Nat × ℚ) rankDesc := by
  constructor
  intro a b
  unfold rankDesc
  rcases lt_trichotomy a.2 b.2 with h | h | h
  · exact Or.inr (Or.inl h)
  · rcases le_total a.1 b.1 with h2 | h2
    · exact Or.inl (Or.inr ⟨h, h2⟩)
    · exact Or.inr (Or.inr ⟨h.symm, h2⟩)
  · exact Or.inl (Or.inl h)

instance : IsTrans (Nat × ℚ) rankDesc := by
  constructor
  intro a b c hab hbc
  unfold rankDesc at hab hbc ⊢
  rcases hab with h1 | ⟨h1, h1i⟩
  · rcases hbc with h2 | ⟨h2, _⟩
    · exact Or.inl (lt_trans h2 h1)
    · exact Or.inl (h2 ▸ h1)
  · rcases hbc with h2 | ⟨h2, h2i⟩
    · exact Or.inl (by rw [h1]; exact h2)
    · exact Or.inr ⟨h1.trans h2, le_trans h1i h2i⟩

theorem rankedBy_length (scores : List ℚ) : (rankedBy scores).length = scores.length := by
  unfold rankedBy
  rw [(List.perm_insertionSort rankDesc _).length_eq, List.enum_length]

theorem contaminationCount_le (n : ℕ) : contaminationCount (8 / 100) n ≤ n := by
  unfold contaminationCount
  rw [Int.toNat_le]
  have h1 : (8 : ℚ) / 100 * n ≤ (n : ℚ) := by
    have h2 : (8 : ℚ) / 100 ≤ 1 := by norm_num
    calc (8 : ℚ) / 100 * n ≤ 1 * n :=
          mul_le_mul_of_nonneg_right h2 (Nat.cast_nonneg n)
      _ = n := one_mul _
  calc round ((8 : ℚ) / 100 * n) ≤ round ((n : ℚ)) := by
        rw [round_eq, round_eq]
        exact Int.floor_le_floor (by linarith)
    _ = n := round_natCast n

/-- Elements ranked into the kept prefix score at least as high as every
element ranked into the dropped suffix. -/
theorem rankedBy_take_drop (scores : List ℚ) (k : ℕ) :
    ∀ p ∈ (rankedBy scores).take k, ∀ q ∈ (rankedBy scores).drop k, q.2 ≤ p.2 := by
  have hs : (rankedBy scores).Pairwise rankDesc :=
    List.sorted_insertionSort rankDesc _
  rw [← List.take_append_drop k (rankedBy scores)] at hs
  have h := (List.pairwise_append.mp hs).2.2
  intro p hp q hq
  rcases h p hp q hq with hlt | ⟨heq, _⟩
  · exact le_of_lt hlt
  · exact le_of_eq heq.symm

/-! ## The suggestion engine's rule structure -/

theorem any_ite_singleton {c : Prop} [Decidable c] (x : Suggestion) (p : Suggestion → Bool) :
    (if c then [x] else []).any p = (decide c && p x) := by
  split_ifs with h <;> simp [h]

theorem any_ite_pair {c c2 : Prop} [Decidable c] [Decidable c2]
    (a b : Suggestion) (p : Suggestion → Bool) (ha : p a = false) (hb : p b = false) :
    (if c then (if c2 then [a] else [b]) else []).any p = false := by
  split_ifs <;> simp [ha, hb]

theorem any_fallback (r : Row) (p : Suggestion → Bool)
    (ht : p (.timeoutHint r.service) = false) (hc : p (.connRefusedHint r.service) = false)
    (he : p (.exceptionHint r.service) = false) (hg : p (.genericHint r.service) = false) :
    (fallbackSuggestions r).any p = false := by
  unfold fallbackSuggestions
  split_ifs <;> simp [ht, hc, he, hg]

theorem hasHighHeap_fallback (r : Row) : hasHighHeap (fallbackSuggestions r) = false :=
  any_fallback r _ rfl rfl rfl rfl

theorem hasHighLatency_fallback (r : Row) : hasHighLatency (fallbackSuggestions r) = false :=
  any_fallback r _ rfl rfl rfl rfl

theorem hasHighCpu_fallback (r : Row) : hasHighCpu (fallbackSuggestions r) = false :=
  any_fallback r _ rfl rfl rfl rfl

theorem hasHighErrorRate_fallback (r : Row) : hasHighErrorRate (fallbackSuggestions r) = false :=
  any_fallback r _ rfl rfl rfl rfl

theorem hasConnPool_fallback (r : Row) : hasConnPool (fallbackSuggestions r) = false :=
  any_fallback r _ rfl rfl rfl rfl

/-- An exceedance suggestion occurs in the final list exactly when it occurs in
the accumulated rule list: the fallback contributes none of them. -/
theorem hasHighHeap_gen (r : Row) :
    hasHighHeap (generate_suggestions r) = hasHighHeap (mainSuggestions r) := by
  unfold generate_suggestions
  by_cases hm : (mainSuggestions r).isEmpty
  · rw [if_pos hm, List.isEmpty_iff.mp hm, hasHighHeap_fallback]; rfl
  · rw [if_neg hm]

theorem hasHighLatency_gen (r : Row) :
    hasHighLatency (generate_suggestions r) = hasHighLatency (mainSuggestions r) := by
  unfold generate_suggestions
  by_cases hm : (mainSuggestions r).isEmpty
  · rw [if_pos hm, List.isEmpty_iff.mp hm, hasHighLatency_fallback]; rfl
  · rw [if_neg hm]

theorem hasHighCpu_gen (r : Row) :
    hasHighCpu (generate_suggestions r) = hasHighCpu (mainSuggestions r) := by
  unfold generate_suggestions
  by_cases hm : (mainSuggestions r).isEmpty
  · rw [if_pos hm, List.isEmpty_iff.mp hm, hasHighCpu_fallback]; rfl
  · rw [if_neg hm]

theorem hasHighErrorRate_gen (r : Row) :
    hasHighErrorRate (generate_suggestions r) = hasHighErrorRate (mainSuggestions r) := by
  unfold generate_suggestions
  by_cases hm : (mainSuggestions r).isEmpty
  · rw [if_pos hm, List.isEmpty_iff.mp hm, hasHighErrorRate_fallback]; rfl
  · rw [if_neg hm]

theorem hasConnPool_gen (r : Row) :
    hasConnPool (generate_suggestions r) = hasConnPool (mainSuggestions r) := by
  unfold generate_suggestions
  by_cases hm : (mainSuggestions r).isEmpty
  · rw [if_pos hm, List.isEmpty_iff.mp hm, hasConnPool_fallback]; rfl
  · rw [if_neg hm]

theorem hasHighHeap_main (r : Row) :
    hasHighHeap (mainSuggestions r)
      = (decide (jvm_heap_usage_ratio_exceedance r > 0)
          && !(containsSubstr "oom" (lowerStr r.message))) := by
  unfold hasHighHeap mainSuggestions oomSuggestions latencySuggestion cpuSuggestion
    heapSuggestion errorRateSuggestion connPoolSuggestion
  simp only [List.any_append]
  rw [any_ite_pair _ _ _ rfl rfl, any_ite_singleton, any_ite_singleton,
    any_ite_singleton, any_ite_singleton, any_ite_singleton]
  simp

theorem hasHighLatency_main (r : Row) :
    hasHighLatency (mainSuggestions r) = decide (latency_p95_ms_exceedance r > 0) := by
  unfold hasHighLatency mainSuggestions oomSuggestions latencySuggestion cpuSuggestion
    heapSuggestion errorRateSuggestion connPoolSuggestion
  simp only [List.any_append]
  rw [any_ite_pair _ _ _ rfl rfl, any_ite_singleton, any_ite_singleton,
    any_ite_singleton, any_ite_singleton, any_ite_singleton]
  simp

theorem hasHighCpu_main (r : Row) :
    hasHighCpu (mainSuggestions r) = decide (cpu_usage_exceedance r > 0) := by
  unfold hasHighCpu mainSuggestions oomSuggestions latencySuggestion cpuSuggestion
    heapSuggestion errorRateSuggestion connPoolSuggestion
  simp only [List.any_append]
  rw [any_ite_pair _ _ _ rfl rfl, any_ite_singleton, any_ite_singleton,
    any_ite_singleton, any_ite_singleton, any_ite_singleton]
  simp

theorem hasHighErrorRate_main (r : Row) :
    hasHighErrorRate (mainSuggestions r) = decide (error_rate_exceedance r > 0) := by
  unfold hasHighErrorRate mainSuggestions oomSuggestions latencySuggestion cpuSuggestion
    heapSuggestion errorRateSuggestion connPoolSuggestion
  simp only [List.any_append]
  rw [any_ite_pair _ _ _ rfl rfl, any_ite_singleton, any_ite_singleton,
    any_ite_singleton, any_ite_singleton, any_ite_singleton]
  simp

theorem hasConnPool_main (r : Row) :
    hasConnPool (mainSuggestions r) = decide (hikaricp_active_exceedance r > 0) := by
  unfold hasConnPool mainSuggestions oomSuggestions latencySuggestion cpuSuggestion
    heapSuggestion errorRateSuggestion connPoolSuggestion
  simp only [List.any_append]
  rw [any_ite_pair _ _ _ rfl rfl, any_ite_singleton, any_ite_singleton,
    any_ite_singleton, any_ite_singleton, any_ite_singleton]
  simp

theorem count_true_map (l : List ℕ) (g : ℕ → Bool) :
    (l.map g).count true = l.countP g := by
  induction l with
  | nil => rfl
  | cons x xs ih =>
    simp only [List.map_cons, List.count_cons, List.countP_cons, ih]
    cases g x <;> simp

/-- The number of flagged records is exactly `round(contamination × N)` for the
default contamination 0.08. -/
theorem flagByContamination_count (scores : List ℚ) :
    (flagByContamination scores (8 / 100)).count true
      = contaminationCount (8 / 100) scores.length := by
  unfold flagByContamination
  set k := contaminationCount (8 / 100) scores.length with hk
  set top := ((rankedBy scores).take k).map (fun p => p.1) with htop
  have hperm : List.Perm ((rankedBy scores).map (fun p : ℕ × ℚ => p.1)) (List.range scores.length) := by
    have hp := (List.perm_insertionSort rankDesc scores.enum).map (fun p : ℕ × ℚ => p.1)
    have he : (scores.enum).map (fun p : ℕ × ℚ => p.1) = List.range scores.length :=
      List.enum_map_fst scores
    rw [he] at hp
    exact hp
  have hnodup_map : ((rankedBy scores).map (fun p : ℕ × ℚ => p.1)).Nodup :=
    hperm.nodup_iff.mpr (List.nodup_range _)
  have htop_take : top = ((rankedBy scores).map (fun p : ℕ × ℚ => p.1)).take k := by
    rw [htop, List.map_take]
  have hnodup_top : top.Nodup := by
    rw [htop_take]
    exact hnodup_map.sublist (List.take_sublist _ _)
  have hsub_top : ∀ x ∈ top, x ∈ List.range scores.length := by
    intro x hx
    rw [htop_take] at hx
    exact hperm.mem_iff.mp (List.mem_of_mem_take hx)
  have hcount : ((List.range scores.length).map (fun i => decide (i ∈ top))).count true
      = ((List.range scores.length).filter (fun i => decide (i ∈ top))).length := by
    rw [count_true_map, List.countP_eq_length_filter]
  rw [hcount]
  have hA : List.Subperm top ((List.range scores.length).filter (fun i => decide (i ∈ top))) :=
    hnodup_top.subperm (fun x hx => List.mem_filter.mpr ⟨hsub_top x hx, by simp [hx]⟩)
  have hB : List.Subperm ((List.range scores.length).filter (fun i => decide (i ∈ top))) top :=
    ((List.nodup_range scores.length).filter _).subperm
      (fun x hx => by simpa using List.of_mem_filter hx)
  have hlen : ((List.range scores.length).filter (fun i => decide (i ∈ top))).length
      = top.length :=
    Nat.le_antisymm hB.length_le hA.length_le
  rw [hlen, htop, List.length_map, List.length_take, rankedBy_length]
  exact min_eq_left (contaminationCount_le _)

/-! ## Concrete inputs used by the witnesses and counterexamples -/

/-- A sample model-score oracle. -/
def sampleScore : Row → ℚ := fun r => r.cpu_usage

/-- A sample model-flag oracle: exactly the ERROR rows are anomalous. -/
def sampleFlag : Row → Bool := fun r => r.level == "ERROR"

def rowErrA : Row :=
  { timestamp := 0, level := "ERROR", service := "a", trace_id := "t",
    message := "db failure" }

def rowInfoB : Row :=
  { timestamp := 1, level := "INFO", service := "b", trace_id := "t",
    message := "request handled" }

def rowErrB : Row :=
  { timestamp := 1, level := "ERROR", service := "b", trace_id := "t",
    message := "downstream failure" }

def rowOom : Row :=
  { timestamp := 0, level := "ERROR", service := "svc", trace_id := "t",
    message := "OutOfMemoryError: Java heap space", jvm_heap_used_bytes := 9,
    jvm_heap_max_bytes := 10 - 1 / 1000000000 }

def logErr : LogRow :=
  { timestamp := 0, level := "ERROR", service := "a", trace_id := "t", message := "x" }

def logB : LogRow :=
  { timestamp := 100, level := "ERROR", service := "b", trace_id := "t2", message := "y" }

def metricA : MetricRow := { timestamp := 10, service := "a", cpu_usage := some 1 }

def scores13 : List ℚ := [5, 1, 3, 2, 4, 0, 6, 7, 2, 9, 1, 1, 0]

/-! ## C1 - affected services -/

/-- C1: counterexample.  On the frame `[rowErrA, rowInfoB]` with the ERROR row
flagged anomalous, trace "t" yields an RCA record; `rowInfoB` shares trace "t"
in the full input dataset with service "b", yet `affected_services = ["a"]`.
The code computes the blast radius over the *filtered* frame: line 157 of
rca_analysis.py reads the `df` that was reassigned by the filters at
lines 79-80, so a service whose only event in the trace was INFO-filtered is
missing, contradicting the claim that `affected_services` covers the full
(pre-filter) dataset and "includes services whose only events in the trace
were filtered out". -/
theorem affected_services_misses_filtered_service :
    runAnalysis [rowErrA, rowInfoB] sampleScore sampleFlag
      = .ok (buildReport [rowErrA, rowInfoB] sampleScore sampleFlag) ∧
    (buildReport [rowErrA, rowInfoB] sampleScore sampleFlag).anomalies.map
      (fun rc => (rc.trace_id, rc.affected_services)) = [("t", ["a"])] ∧
    rowInfoB ∈ [rowErrA, rowInfoB] ∧ rowInfoB.trace_id = "t" ∧
    rowInfoB.service = "b" ∧ ("b" : String) ∉ (["a"] : List String) :=
  ⟨rfl, by decide, by decide, rfl, rfl, by decide⟩

/-- C1 (amended): for every successful run, each RCA record's
`affected_services` is the set of `service` values across all records sharing
its trace_id in the *filtered* dataset (after the ignore-list and INFO filters,
anomalous or not), in first-seen order; in particular it contains
`root_cause_service` and the service of every filtered-frame record of that
trace. -/
theorem affected_services_of_filtered_frame (df : List Row) (score : Row → ℚ)
    (flag : Row → Bool) (rep : Report) (h : runAnalysis df score flag = .ok rep) :
    ∀ rca ∈ rep.anomalies,
      rca.affected_services =
        uniqueFirstSeen ((traceGroup (filteredRows df) rca.trace_id).map
          (fun r => r.service)) ∧
      rca.root_cause_service ∈ rca.affected_services ∧
      ∀ r ∈ filteredRows df, r.trace_id = rca.trace_id →
        r.service ∈ rca.affected_services := by
  intro rca hm
  rcases mem_rcaRecords (runAnalysis_anomalies_mem h hm) with
    ⟨w, hw, hsvc, _, _, _, _, _, haff⟩
  refine ⟨haff, ?_, ?_⟩
  · have hpw : (traceGroup ((filteredRows df).filter flag) rca.trace_id).Pairwise tsLe :=
      ((filteredRows_pairwise df).filter _).filter _
    have hwmem := (worstOf_spec score _ hpw hw).1
    have hmem2 := mem_traceGroup.mp hwmem
    have hmem3 := List.mem_filter.mp hmem2.1
    rw [hsvc, haff]
    exact mem_uniqueFirstSeen.mpr
      (List.mem_map.mpr ⟨w, mem_traceGroup.mpr ⟨hmem3.1, hmem2.2⟩, rfl⟩)
  · intro r hr htid
    rw [haff]
    exact mem_uniqueFirstSeen.mpr
      (List.mem_map.mpr ⟨r, mem_traceGroup.mpr ⟨hr, htid⟩, rfl⟩)

/-- Witness for `affected_services_of_filtered_frame` at a concrete run. -/
theorem affected_services_of_filtered_frame_witness :
    runAnalysis [rowErrA, rowInfoB] sampleScore sampleFlag
      = .ok (buildReport [rowErrA, rowInfoB] sampleScore sampleFlag) ∧
    ∀ rca ∈ (buildReport [rowErrA, rowInfoB] sampleScore sampleFlag).anomalies,
      rca.affected_services =
        uniqueFirstSeen ((traceGroup (filteredRows [rowErrA, rowInfoB]) rca.trace_id).map
          (fun r => r.service)) ∧
      rca.root_cause_service ∈ rca.affected_services ∧
      ∀ r ∈ filteredRows [rowErrA, rowInfoB], r.trace_id = rca.trace_id →
        r.service ∈ rca.affected_services :=
  ⟨rfl, affected_services_of_filtered_frame [rowErrA, rowInfoB] sampleScore sampleFlag _ rfl⟩

/-! ## C2 - the time-based join -/

/-- C2: counterexample.  With a non-empty log list and an *empty* metric
stream, `merge_data` returns the logs-only frame: the merged record exists
(one per event) but the frame carries no metric columns at all
(prepare_data.py lines 88-90 return `df_logs` unchanged), so no metric field
is "filled with 0" - contradicting the claim for the empty-metric input. -/
theorem mergeData_empty_metrics_no_columns :
    (mergeData [logErr] []).hasMetricCols = false ∧
    (mergeData [logErr] []).rows.map toLogRow = [logErr] :=
  ⟨rfl, rfl⟩

/-- C2 (amended): for timestamp-sorted inputs (`merge_asof` requires sorted
keys; `load_logs`/`load_metrics` sort before merging) and a *non-empty* wide
metric frame, the correlator emits exactly one record per log event, in order,
and each record either takes its metric fields from a same-service wide record
of minimal absolute timestamp distance, at most 15 s away, or - when no
same-service record is within 15 s - has every metric field equal to 0. -/
theorem mergeData_join_contract (logs : List LogRow) (metrics : List MetricRow)
    (hlogs : logs.Pairwise (fun a b => a.timestamp ≤ b.timestamp))
    (hmet : metrics.Pairwise (fun a b => a.timestamp ≤ b.timestamp))
    (hne : metrics ≠ []) :
    (mergeData logs metrics).rows.map toLogRow = logs ∧
    List.Forall₂ (correlatedWith metrics) logs (mergeData logs metrics).rows := by
  refine ⟨mergeData_map_toLogRow logs metrics, ?_⟩
  unfold mergeData
  rw [if_neg (by simpa using hne)]
  show List.Forall₂ (correlatedWith metrics) logs (logs.map (fun l =>
    match matchedMetric l metrics with
    | some m => enrichWith l m
    | none => zeroEnrich l))
  refine List.forall₂_map_right_iff.mpr (List.forall₂_same.mpr ?_)
  intro l _
  exact mergeStep_correlated metrics l

/-- Witness for `mergeData_join_contract` at a concrete run: one log event
matched within tolerance, one with no same-service record. -/
theorem mergeData_join_contract_witness :
    (([metricA] : List MetricRow) ≠ []) ∧
    ((mergeData [logErr, logB] [metricA]).rows.map toLogRow = [logErr, logB] ∧
      List.Forall₂ (correlatedWith [metricA]) [logErr, logB]
        (mergeData [logErr, logB] [metricA]).rows) :=
  ⟨by decide,
   mergeData_join_contract [logErr, logB] [metricA] (by decide) (by decide) (by decide)⟩

/-! ## C3 - the upstream filter and the all-informational short-circuit -/

/-- C3: a record reaches scoring iff it is in the input and is neither
INFO-level nor carries an ignore-listed phrase (case-insensitively) in its
message; and when the filters leave nothing, the run returns the zero-anomaly
report - for *every* score/flag oracle, i.e. without consulting the model. -/
theorem filter_iff_and_short_circuit (df : List Row) (score : Row → ℚ)
    (flag : Row → Bool) :
    (∀ r : Row, r ∈ filteredRows df ↔
      (r ∈ df ∧ ¬(r.level = "INFO" ∨ containsIgnorePattern r.message = true))) ∧
    (df ≠ [] → filteredRows df = [] →
      runAnalysis df score flag
        = .ok { anomaly_count := 0, top_errors := [], anomalies := [] }) := by
  constructor
  · intro r
    rw [mem_filteredRows]
    constructor
    · rintro ⟨h1, h2, h3⟩
      exact ⟨h1, fun hc => hc.elim h2 (fun hx => by rw [h3] at hx; cases hx)⟩
    · rintro ⟨h1, h2⟩
      push_neg at h2
      exact ⟨h1, h2.1, by simpa using h2.2⟩
  · exact runAnalysis_filtered_empty score flag

/-- Witness for `filter_iff_and_short_circuit`: one INFO record, filtered to
nothing, yields the zero report. -/
theorem filter_iff_and_short_circuit_witness :
    (([rowInfoB] : List Row) ≠ [] ∧ filteredRows [rowInfoB] = []) ∧
    runAnalysis [rowInfoB] sampleScore sampleFlag
      = .ok { anomaly_count := 0, top_errors := [], anomalies := [] } :=
  ⟨⟨by decide, by decide⟩,
   (filter_iff_and_short_circuit [rowInfoB] sampleScore sampleFlag).2
     (by decide) (by decide)⟩

/-! ## C4 - root-cause selection -/

/-- C4: in every successful run, each RCA record's root-cause fields come from
a member `w` of its trace group of flagged records such that `w` has the
maximal anomaly score in the group, and among members tied at that score `w`
has the earliest timestamp. -/
theorem root_cause_max_score_earliest_tie (df : List Row) (score : Row → ℚ)
    (flag : Row → Bool) (rep : Report) (h : runAnalysis df score flag = .ok rep) :
    ∀ rca ∈ rep.anomalies,
      ∃ w ∈ traceGroup ((filteredRows df).filter flag) rca.trace_id,
        rca.root_cause_service = w.service ∧ rca.timestamp = w.timestamp ∧
        rca.message = w.message ∧ rca.anomaly_score = score w ∧
        (∀ r ∈ traceGroup ((filteredRows df).filter flag) rca.trace_id,
          score r ≤ score w) ∧
        (∀ r ∈ traceGroup ((filteredRows df).filter flag) rca.trace_id,
          score r = score w → w.timestamp ≤ r.timestamp) := by
  intro rca hm
  rcases mem_rcaRecords (runAnalysis_anomalies_mem h hm) with
    ⟨w, hw, h1, h2, h3, h4, _, _, _⟩
  have hpw : (traceGroup ((filteredRows df).filter flag) rca.trace_id).Pairwise tsLe :=
    ((filteredRows_pairwise df).filter _).filter _
  rcases worstOf_spec score _ hpw hw with ⟨hmem, hmax, htie⟩
  exact ⟨w, hmem, h1, h2, h3, h4, hmax, htie⟩

/-- Witness for `root_cause_max_score_earliest_tie` on a run whose single trace
group holds two flagged rows tied at the same score. -/
theorem root_cause_max_score_earliest_tie_witness :
    runAnalysis [rowErrA, rowErrB] sampleScore sampleFlag
      = .ok (buildReport [rowErrA, rowErrB] sampleScore sampleFlag) ∧
    ∀ rca ∈ (buildReport [rowErrA, rowErrB] sampleScore sampleFlag).anomalies,
      ∃ w ∈ traceGroup ((filteredRows [rowErrA, rowErrB]).filter sampleFlag) rca.trace_id,
        rca.root_cause_service = w.service ∧ rca.timestamp = w.timestamp ∧
        rca.message = w.message ∧ rca.anomaly_score = sampleScore w ∧
        (∀ r ∈ traceGroup ((filteredRows [rowErrA, rowErrB]).filter sampleFlag)
          rca.trace_id, sampleScore r ≤ sampleScore w) ∧
        (∀ r ∈ traceGroup ((filteredRows [rowErrA, rowErrB]).filter sampleFlag)
          rca.trace_id, sampleScore r = sampleScore w → w.timestamp ≤ r.timestamp) :=
  ⟨rfl, root_cause_max_score_earliest_tie [rowErrA, rowErrB] sampleScore sampleFlag _ rfl⟩

/-! ## C5 - the contamination bound (spec-modelled thresholding) -/

/-- C5: for a non-empty score list, the spec-modelled thresholding flags
exactly `round(0.08 × N)` records, and every record ranked into the flagged
prefix has an anomaly score at least as high as every record left unflagged. -/
theorem contamination_flag_count_and_top (scores : List ℚ) (h : scores ≠ []) :
    (flagByContamination scores (8 / 100)).count true
      = contaminationCount (8 / 100) scores.length ∧
    (∀ p ∈ (rankedBy scores).take (contaminationCount (8 / 100) scores.length),
      ∀ q ∈ (rankedBy scores).drop (contaminationCount (8 / 100) scores.length),
        q.2 ≤ p.2) :=
  ⟨flagByContamination_count scores, rankedBy_take_drop scores _⟩

/-- Witness for `contamination_flag_count_and_top` on 13 concrete scores
(`round(0.08 × 13) = 1`). -/
theorem contamination_flag_count_and_top_witness :
    (scores13 ≠ []) ∧
    ((flagByContamination scores13 (8 / 100)).count true
        = contaminationCount (8 / 100) scores13.length ∧
      (∀ p ∈ (rankedBy scores13).take (contaminationCount (8 / 100) scores13.length),
        ∀ q ∈ (rankedBy scores13).drop (contaminationCount (8 / 100) scores13.length),
          q.2 ≤ p.2)) :=
  ⟨by decide, contamination_flag_count_and_top scores13 (by decide)⟩

/-! ## C6 - empty input versus empty-after-filter -/

/-- C6: a completely empty input frame makes the analysis signal the
empty-input error (the `ValueError` of rca_analysis.py line 68) instead of
producing a report, while a non-empty input that only becomes empty after
filtering yields a valid zero-anomaly report and no error. -/
theorem empty_input_error_vs_zero_report (df : List Row) (score : Row → ℚ)
    (flag : Row → Bool) :
    (df = [] → runAnalysis df score flag = .error .emptyInput) ∧
    (df ≠ [] → filteredRows df = [] →
      runAnalysis df score flag
        = .ok { anomaly_count := 0, top_errors := [], anomalies := [] }) := by
  constructor
  · rintro rfl
    rfl
  · exact runAnalysis_filtered_empty score flag

/-- Witness for `empty_input_error_vs_zero_report`: the empty frame errors and
the all-INFO frame reports zero anomalies. -/
theorem empty_input_error_vs_zero_report_witness :
    runAnalysis [] sampleScore sampleFlag = .error .emptyInput ∧
    (([rowInfoB] : List Row) ≠ [] ∧ filteredRows [rowInfoB] = [] ∧
      runAnalysis [rowInfoB] sampleScore sampleFlag
        = .ok { anomaly_count := 0, top_errors := [], anomalies := [] }) :=
  ⟨(empty_input_error_vs_zero_report [] sampleScore sampleFlag).1 rfl,
   by decide, by decide,
   (empty_input_error_vs_zero_report [rowInfoB] sampleScore sampleFlag).2
     (by decide) (by decide)⟩

/-! ## C7 - the top-errors table -/

/-- C8: counterexample.  On a record whose message contains "OutOfMemory" but
not the substring "oom" (lower-cased: "outofmemoryerror..." has no "oom"), the
OOM branch fires (rca_analysis.py line 13 also matches "outofmemory"), yet the
heap-exceedance suggestion is *also* appended: the suppression guard at
line 33 checks only `"oom" not in msg_lower`, so "suppressed exactly when the
OOM branch has fired" is false. -/
theorem heap_suggestion_not_suppressed_on_outofmemory :
    oomBranchFired rowOom = true ∧
    hasHighHeap (generate_suggestions rowOom) = true := by
  refine ⟨by decide, ?_⟩
  rw [hasHighHeap_gen, hasHighHeap_main]
  have h1 : containsSubstr "oom" (lowerStr rowOom.message) = false := by decide
  have h2 : jvm_heap_usage_ratio_exceedance rowOom > 0 := by
    unfold jvm_heap_usage_ratio_exceedance jvm_heap_usage_ratio clipLower0 rowOom
    norm_num
  rw [h1]
  simp [h2]

/-- C8 (amended): the heap-exceedance suggestion appears iff the heap
exceedance is positive and the lower-cased message does *not* contain "oom"
(so it is suppressed exactly on the "oom" substring - a condition that implies
the OOM branch fired but is not implied by it); every other exceedance
suggestion (latency, CPU, error rate, connection pool) appears iff its
exceedance feature is positive, unaffected by the OOM branch. -/
theorem exceedance_suggestions_characterization (r : Row) :
    (hasHighHeap (generate_suggestions r) = true ↔
      (jvm_heap_usage_ratio_exceedance r > 0 ∧
        containsSubstr "oom" (lowerStr r.message) = false)) ∧
    (containsSubstr "oom" (lowerStr r.message) = true → oomBranchFired r = true) ∧
    (hasHighLatency (generate_suggestions r) = true ↔ latency_p95_ms_exceedance r > 0) ∧
    (hasHighCpu (generate_suggestions r) = true ↔ cpu_usage_exceedance r > 0) ∧
    (hasHighErrorRate (generate_suggestions r) = true ↔ error_rate_exceedance r > 0) ∧
    (hasConnPool (generate_suggestions r) = true ↔ hikaricp_active_exceedance r > 0) := by
  refine ⟨?_, ?_, ?_, ?_, ?_, ?_⟩
  · rw [hasHighHeap_gen, hasHighHeap_main]
    simp
  · intro hx
    unfold oomBranchFired
    rw [hx]
    rfl
  · rw [hasHighLatency_gen, hasHighLatency_main]
    simp
  · rw [hasHighCpu_gen, hasHighCpu_main]
    simp
  · rw [hasHighErrorRate_gen, hasHighErrorRate_main]
    simp
  · rw [hasConnPool_gen, hasConnPool_main]
    simp

/-- Witness for `exceedance_suggestions_characterization` at a concrete row. -/
theorem exceedance_suggestions_characterization_witness :
    (hasHighHeap (generate_suggestions rowOom) = true ↔
      (jvm_heap_usage_ratio_exceedance rowOom > 0 ∧
        containsSubstr "oom" (lowerStr rowOom.message) = false)) ∧
    (containsSubstr "oom" (lowerStr rowOom.message) = true →
      oomBranchFired rowOom = true) ∧
    (hasHighLatency (generate_suggestions rowOom) = true ↔
      latency_p95_ms_exceedance rowOom > 0) ∧
    (hasHighCpu (generate_suggestions rowOom) = true ↔
      cpu_usage_exceedance rowOom > 0) ∧
    (hasHighErrorRate (generate_suggestions rowOom) = true ↔
      error_rate_exceedance rowOom > 0) ∧
    (hasConnPool (generate_suggestions rowOom) = true ↔
      hikaricp_active_exceedance rowOom > 0) :=
  exceedance_suggestions_characterization rowOom

/-! ## C9 - empty metric stream -/

/-- C9 (code bug): with one ERROR log event that survives the filters and an
entirely empty metric stream, the pipeline does *not* produce a report: it
fails with the KeyError of rca_analysis.py line 118.  `merge_data` returned
the logs-only frame (prepare_data.py lines 88-90: no metric columns), the
emptiness check (line 67) and the filter short-circuit (lines 82-92) pass, and
line 118 then reads `df["jvm_heap_used_bytes"]` on a frame without that
column; the fill of missing feature columns at lines 135-138 comes only after
and never runs. -/
theorem runPipeline_empty_metrics_keyError :
    runPipeline [logErr] [] sampleScore sampleFlag = .error .keyError := rfl

/-! ## C10 - the metric snapshot -/

/-- C10: in every successful run, each RCA record's `metric_snapshot` has
exactly the seven raw metric feature names as keys, in the `metric_features`
order - never derived features such as exceedances or ratios.  (Values are
non-null by construction: the snapshot reads the filled columns of the
root-cause row, which are total rationals in this embedding, mirroring the
fill at rca_analysis.py lines 135-138 that precedes snapshot creation.) -/
theorem metric_snapshot_keys_fixed (df : List Row) (score : Row → ℚ)
    (flag : Row → Bool) (rep : Report) (h : runAnalysis df score flag = .ok rep) :
    ∀ rca ∈ rep.anomalies,
      rca.metric_snapshot.map Prod.fst = metric_features := by
  intro rca hm
  rcases mem_rcaRecords (runAnalysis_anomalies_mem h hm) with
    ⟨w, _, _, _, _, _, hsnap, _, _⟩
  rw [hsnap]
  unfold metricSnapshot
  rw [List.map_map]
  have hcomp : ∀ c ∈ metric_features,
      (Prod.fst ∘ fun c => (c, metricValue w c)) c = id c := fun c _ => rfl
  rw [List.map_congr_left hcomp, List.map_id]

/-- Witness for `metric_snapshot_keys_fixed` at a concrete run. -/
theorem metric_snapshot_keys_fixed_witness :
    runAnalysis [rowErrA, rowInfoB] sampleScore sampleFlag
      = .ok (buildReport [rowErrA, rowInfoB] sampleScore sampleFlag) ∧
    ∀ rca ∈ (buildReport [rowErrA, rowInfoB] sampleScore sampleFlag).anomalies,
      rca.metric_snapshot.map Prod.fst = metric_features :=
  ⟨rfl, metric_snapshot_keys_fixed [rowErrA, rowInfoB] sampleScore sampleFlag _ rfl⟩
